import Mathlib

/-!
Verification of the hotreload supervisor (Rust sources: `src/lib.rs`,
`src/environment.rs`, `src/layer.rs`) against its natural-language
specification.  The Rust code is shallowly embedded: pure functions become
Lean functions, stateful operations become explicit state-passing functions,
fallible operations return `Except`.  External collaborators (the Python
parser of `rustpython_parser`, the filesystem, the message codec of the
missing `messages.rs`, the multiplexed-line parser of the missing
`multiplex_logs.rs`, and the resolver of the missing `async_resolve.rs`) are
modelled as parameters or, where the spec pins them down, as definitions
marked `Modelled from the spec`.
-/

namespace Hotreload

/-! ## Import scanner (`src/lib.rs`) -/

/-- Embedding of the subset of the `rustpython_parser` statement AST that
`collect_imports` in `src/lib.rs` scrutinises.  `imp` carries the aliases of
an `import X` statement as pairs `(name, asname)`; `importFrom` carries the
optional source module, the aliases, and the optional relative level.
Containers that `collect_imports` matches are `ifStmt`, `whileStmt`,
`functionDef`, `asyncFunctionDef`, and `classDef`; the AST also has a
`forStmt` container (Rust `Stmt::For`, with body and else clause) which falls
into the catch-all `_ => {}` arm of `collect_imports`, and `other` stands for
every remaining statement kind. -/
inductive Stmt where
  | imp (aliases : List (String × Option String))
  | importFrom (module : Option String) (aliases : List (String × Option String))
      (level : Option Nat)
  | ifStmt (body orelse : List Stmt)
  | whileStmt (body orelse : List Stmt)
  | forStmt (body orelse : List Stmt)
  | functionDef (body : List Stmt)
  | asyncFunctionDef (body : List Stmt)
  | classDef (body : List Stmt)
  | other
deriving Repr

/-- Embedding of `ImportInfo` from `src/lib.rs`. -/
structure ImportInfo where
  module : String
  names : List String
  is_relative : Bool
deriving Repr

mutual

/-- Imports contributed by one statement, following the `match` arms of
`collect_imports` in `src/lib.rs` (lines 30–93).  `forStmt` and `other` land
in the `_ => {}` arm and contribute nothing. -/
def collectStmt : Stmt → List ImportInfo
  | .imp aliases =>
      aliases.map (fun a =>
        { module := a.1, names := [a.2.getD a.1], is_relative := false })
  | .importFrom module aliases level =>
      match module with
      | some moduleName =>
          [{ module := moduleName,
             names := aliases.map (fun a => a.2.getD a.1),
             is_relative := match level with
               | some l => decide (l > 0)
               | none => false }]
      | none => []
  | .ifStmt body orelse => collect_imports body ++ collect_imports orelse
  | .whileStmt body orelse => collect_imports body ++ collect_imports orelse
  | .forStmt _ _ => []
  | .functionDef body => collect_imports body
  | .asyncFunctionDef body => collect_imports body
  | .classDef body => collect_imports body
  | .other => []

/-- Embedding of `collect_imports` from `src/lib.rs`: traverse the statement
list in order, appending the imports contributed by each statement. -/
def collect_imports : List Stmt → List ImportInfo
  | [] => []
  | s :: rest => collectStmt s ++ collect_imports rest

end

/-- Embedding of the `rustpython_parser` `Mod` result scrutinised by
`process_py_files` (only the `Mod::Module` arm carries statements). -/
inductive Mod where
  | module (body : List Stmt)
  | notModule
deriving Repr

/-- A source file visited by the scan: its path and the result of
`fs::read_to_string` (`.error e` models an unreadable file, where `e` is the
I/O error message, which in Rust does not mention the path). -/
structure PyFile where
  path : String
  content : Except String String
deriving Repr

/-- Rust `str::starts_with` with a string pattern, embedded as a
character-list prefix test (for well-formed UTF-8 the byte prefix relation
coincides with the character prefix relation). -/
def startsWithStr (s pre : String) : Bool :=
  List.isPrefixOf pre.toList s.toList

/-- The filter applied by `process_py_files` (lines 160–167 of
`src/lib.rs`): keep an import when it is not relative and, if a package name
was detected, the module does not start with the package name
(`imp.module.starts_with(pkg)`). -/
def keepImport (package_name : Option String) (imp : ImportInfo) : Bool :=
  !imp.is_relative &&
    !(match package_name with
      | some pkg => startsWithStr imp.module pkg
      | none => false)

/-- Rust `HashSet::insert` on the module set, modelled as an ordered list with
first-occurrence deduplication (the claims only use membership). -/
def insertModule (s : List String) (m : String) : List String :=
  if m ∈ s then s else s ++ [m]

/-- The body of the inner import loop of `process_py_files` (lines 161–167
of `src/lib.rs`): insert the module of a kept import, skip the rest. -/
def keptStep (package_name : Option String) (acc : List String)
    (imp : ImportInfo) : List String :=
  if keepImport package_name imp then insertModule acc imp.module else acc

/-- Processing of a single file inside the walk loop of `process_py_files`
(lines 146–167 of `src/lib.rs`): propagate the read error as is; wrap a
parse error as `Failed to parse <path>: <reason>`; reject a non-module AST;
otherwise insert every kept import into the accumulated set.  The parser of
`rustpython_parser` is external and is passed as the `parse` parameter. -/
def processFile (parse : String → Except String Mod) (package_name : Option String)
    (acc : List String) (f : PyFile) : Except String (List String) :=
  match f.content with
  | .error e => .error e
  | .ok source =>
    match parse source with
    | .error e => .error ("Failed to parse " ++ f.path ++ ": " ++ e)
    | .ok (.module body) =>
        .ok ((collect_imports body).foldl (keptStep package_name) acc)
    | .ok .notModule =>
        .error ("Unexpected AST format for module in file " ++ f.path)

/-- The walk loop of `process_py_files`: process each file in visit order,
threading the accumulated module set, aborting on the first failure. -/
def processPyFilesAux (parse : String → Except String Mod)
    (package_name : Option String) (acc : List String) :
    List PyFile → Except String (List String)
  | [] => .ok acc
  | f :: rest =>
    match processFile parse package_name acc f with
    | .error e => .error e
    | .ok acc1 => processPyFilesAux parse package_name acc1 rest

/-- Embedding of `process_py_files` from `src/lib.rs` (lines 132–170): run
the walk loop over the files of the tree starting from the empty set.
Package detection (`detect_package_name`, filesystem and regex based) is
external to the scan loop and passed as `package_name`. -/
def process_py_files (parse : String → Except String Mod)
    (package_name : Option String) (files : List PyFile) :
    Except String (List String) :=
  processPyFilesAux parse package_name [] files

/-- First dotted segment of a module name (`"a.b.c"` gives `"a"`). -/
def firstSegment (m : String) : String :=
  String.mk (m.toList.takeWhile (fun c => c != '.'))

/-! ## Message protocol (`crate::messages`, used by `src/environment.rs` and
`src/layer.rs`)

The `messages.rs` module itself is not among the sources; the variants and
their fields are reconstructed from their uses in `src/environment.rs` and
`src/layer.rs` and from the spec's §4.3 message list.  In particular
`ForkRequest` is built in `exec_isolated` as `ForkRequest { code: exec_code }`,
so it has exactly the one field `code`. -/
inductive Message where
  | forkRequest (code : String)
  | forkResponse (request_id request_name : String) (child_pid : Int)
  | childComplete (result : Option String)
  | childError (error : String) (traceback : Option String)
  | unknownError (error : String)
  | importComplete
  | importError (error : String) (traceback : Option String)
  | exitRequest
deriving Repr, DecidableEq

/-- One line read from the loader's stdout: either it parses as a protocol
`Message`, or it is raw non-message output, or the underlying read failed
with an I/O error (`line.map_err` in the Rust read loops). -/
inductive RLine where
  | msg (m : Message)
  | raw (s : String)
  | ioErr (e : String)
deriving Repr, DecidableEq

/-! ## Supervisor state (`src/environment.rs`) -/

/-- Modelled from the spec: `PYTHON_CHILD_SCRIPT` from the missing
`crate::scripts` module — the worker prelude that reconstitutes and invokes
the pickled callable.  Its contents are irrelevant to every claim. -/
def PYTHON_CHILD_SCRIPT : String := "<python child script>"

/-- Embedding of `Environment` from `src/environment.rs`: the loader child
process (`child_alive` models whether the OS process still exists), the
messages written to its stdin (oldest first), the unread lines of its stdout
reader, and the `forked_processes` UUID→PID map (an association list). -/
structure Environment where
  child_alive : Bool
  stdin_writes : List Message
  reader : List RLine
  forked_processes : List (String × Int)
deriving Repr, DecidableEq

/-- Embedding of `ImportRunner` from `src/environment.rs`; `ast_manager` is
from the missing `crate::ast` and its outputs (scan results, import deltas)
are passed to the operations as parameters. -/
structure ImportRunner where
  environment : Option Environment
  first_scan : Bool
deriving Repr, DecidableEq

/-- Rust `HashMap::insert` on an association list (first binding wins on lookup,
so the old binding is dropped). -/
def assocInsert {α : Type} (k : String) (v : α) (m : List (String × α)) :
    List (String × α) :=
  (k, v) :: m.filter (fun p => p.1 != k)

/-- Rust `HashMap::remove` on an association list. -/
def assocRemove {α : Type} (k : String) (m : List (String × α)) :
    List (String × α) :=
  m.filter (fun p => p.1 != k)

/-- The `exec_code` prelude built by `exec_isolated` (lines 278–284 of
`src/environment.rs`): the raw-string format
`"\npickled_str = \"{}\"\n{}\n            "` applied to the pickled data and
`PYTHON_CHILD_SCRIPT`. -/
def exec_code (pickled_data : String) : String :=
  "\npickled_str = \"" ++ pickled_data ++ "\"\n" ++ PYTHON_CHILD_SCRIPT
    ++ "\n            "

/-- The read loop of `exec_isolated` (lines 304–329 of `src/environment.rs`):
consume reader lines until a `ForkResponse` yields a PID, a `ChildError`
aborts with `Fork error: …`, a read failure aborts with
`Failed to read line: …`, or the stream ends (leaving the PID unknown).
Returns the outcome together with the unconsumed remainder of the reader. -/
def readUntilForkResponse : List RLine → Except String (Option Int) × List RLine
  | [] => (.ok none, [])
  | .ioErr e :: rest => (.error ("Failed to read line: " ++ e), rest)
  | .msg (.forkResponse _ _ pid) :: rest => (.ok (some pid), rest)
  | .msg (.childError err _) :: rest => (.error ("Fork error: " ++ err), rest)
  | .msg _ :: rest => readUntilForkResponse rest
  | .raw _ :: rest => readUntilForkResponse rest

/-- Embedding of `exec_isolated` from `src/environment.rs` (lines 266–343).
The steps, in source order: fail if no environment; build the `ForkRequest`
carrying only `exec_code` and write and flush it to the loader's stdin; mint
the process UUID (`Uuid::new_v4`, passed here as `fresh_uuid`); read the
loader's stdout until a `ForkResponse` or `ChildError`; reject an empty
UUID; if a PID was obtained, record `fresh_uuid → pid` in
`forked_processes`; return the UUID. -/
def exec_isolated (pickled_data : String) (fresh_uuid : String)
    (r : ImportRunner) : Except String String × ImportRunner :=
  match r.environment with
  | none => (.error "Environment not initialized. Call boot_main first.", r)
  | some env =>
    let fork_json := Message.forkRequest (exec_code pickled_data)
    let res := readUntilForkResponse env.reader
    let env2 := { env with
                  stdin_writes := env.stdin_writes ++ [fork_json],
                  reader := res.2 }
    match res.1 with
    | .error e => (.error e, { r with environment := some env2 })
    | .ok pidOpt =>
      if fresh_uuid.isEmpty then
        (.error "Failed to get process UUID from fork operation",
         { r with environment := some env2 })
      else
        match pidOpt with
        | some pid =>
            (.ok fresh_uuid,
             { r with environment := some { env2 with
                 forked_processes :=
                   assocInsert fresh_uuid pid env2.forked_processes } })
        | none => (.ok fresh_uuid, { r with environment := some env2 })

/-- Embedding of `stop_main` from `src/environment.rs` (lines 169–200): with
no environment return `false`; otherwise kill and wait for the loader child
and clear `forked_processes`, returning `true`.  The `environment` field
itself is left in place (`stop_main` takes `&self`). -/
def stop_main (r : ImportRunner) : Except String Bool × ImportRunner :=
  match r.environment with
  | none => (.ok false, r)
  | some env =>
      (.ok true,
       { r with environment :=
                  some ({ env with child_alive := false,
                                   forked_processes := [] }) })

/-- The handshake loop of `boot_main` (lines 92–126 of `src/environment.rs`):
read loader stdout until `ImportComplete` (success, returning the remaining
lines), `ImportError` (abort), a read failure (abort), or end of stream
(abort with the `did not report successful imports` error). -/
def readUntilImportComplete : List RLine → Except String (List RLine)
  | [] => .error "Python loader did not report successful imports"
  | .ioErr e :: _ => .error ("Failed to read line: " ++ e)
  | .msg .importComplete :: rest => .ok rest
  | .msg (.importError err tb) :: _ =>
      .error ("Import error: " ++ err ++ ": " ++ tb.getD "")
  | .msg _ :: rest => readUntilImportComplete rest
  | .raw _ :: rest => readUntilImportComplete rest

/-- Embedding of `boot_main` from `src/environment.rs` (lines 58–167).  The
scan (`ast_manager.process_all_py_files`, from the missing `crate::ast`) and
the loader's handshake output are parameters.  On scan failure or handshake
failure the runner is unchanged (in particular a previous `environment`
value survives); on success a fresh environment with a live child, empty
stdin history, the unconsumed reader and an empty process map is stored.
Note that `boot_main` does not touch `first_scan`. -/
def boot_main (scan : Except String (List String)) (handshake : List RLine)
    (r : ImportRunner) : Except String Unit × ImportRunner :=
  match scan with
  | .error e => (.error ("Failed to process Python files: " ++ e), r)
  | .ok _modules =>
    match readUntilImportComplete handshake with
    | .error e => (.error e, r)
    | .ok rest =>
        (.ok (),
         { r with environment :=
                    some ({ child_alive := true, stdin_writes := [],
                            reader := rest,
                            forked_processes := [] : Environment }) })

/-- A termination signal sent by `stop_isolated` via `libc::kill`. -/
inductive KillAction where
  | sigterm (pid : Int)
  | sigkill (pid : Int)
deriving Repr, DecidableEq

/-- Embedding of `stop_isolated` from `src/environment.rs` (lines 346–408):
fail if no environment; if the UUID is not in `forked_processes`, return
`false` touching nothing; otherwise send SIGTERM (escalating to SIGKILL when
SIGTERM fails, controlled here by `sigterm_ok`), write an `ExitRequest` to
the loader's stdin, remove the UUID from the map, and return `true`.  The
third component lists the signals sent. -/
def stop_isolated (sigterm_ok : Bool) (process_uuid : String)
    (r : ImportRunner) : Except String Bool × ImportRunner × List KillAction :=
  match r.environment with
  | none => (.error "Environment not initialized. Call boot_main first.", r, [])
  | some env =>
    match env.forked_processes.lookup process_uuid with
    | none => (.ok false, r, [])
    | some pid =>
        let acts := if sigterm_ok then [KillAction.sigterm pid]
          else [KillAction.sigterm pid, KillAction.sigkill pid]
        (.ok true,
         { r with environment := some { env with
             stdin_writes := env.stdin_writes ++ [Message.exitRequest],
             forked_processes := assocRemove process_uuid env.forked_processes } },
         acts)

/-- The read loop of `communicate_isolated` (lines 428–452 of
`src/environment.rs`): consume reader lines until a `ChildComplete` yields
`Ok(result)` or a `ChildError` yields `Err(error.error)` — only the error
text, the traceback field is not consulted; a read failure aborts; raw lines
are printed with an `[isolate]` prefix and skipped; end of stream yields
`Ok(none)`. -/
def readUntilChildResult :
    List RLine → Except String (Option String) × List RLine
  | [] => (.ok none, [])
  | .ioErr e :: rest => (.error ("Failed to read line: " ++ e), rest)
  | .msg (.childComplete res) :: rest => (.ok res, rest)
  | .msg (.childError err _) :: rest => (.error err, rest)
  | .msg _ :: rest => readUntilChildResult rest
  | .raw _ :: rest => readUntilChildResult rest

/-- Embedding of `communicate_isolated` from `src/environment.rs`
(lines 411–456). -/
def communicate_isolated (process_uuid : String) (r : ImportRunner) :
    Except String (Option String) × ImportRunner :=
  match r.environment with
  | none => (.error "No environment available for communication", r)
  | some env =>
    if (env.forked_processes.lookup process_uuid).isNone then
      (.error ("Process " ++ process_uuid ++ " does not exist"), r)
    else
      let res := readUntilChildResult env.reader
      (res.1, { r with environment := some { env with reader := res.2 } })

/-- The worker-stopping loop of `update_environment` (lines 242–247 of
`src/environment.rs`): stop each forked process in turn, ignoring (warning
on) failures, accumulating the signals sent. -/
def stopAllForked (sigterm_ok : Bool) :
    List String → ImportRunner → ImportRunner × List KillAction
  | [], r => (r, [])
  | u :: rest, r =>
      let s := stop_isolated sigterm_ok u r
      let t := stopAllForked sigterm_ok rest s.2.1
      (t.1, s.2.2 ++ t.2)

/-- Embedding of `update_environment` from `src/environment.rs`
(lines 202–258): return `false` untouched when `first_scan` is unset;
propagate a delta-computation failure; return `false` untouched when the
delta is empty; otherwise stop every forked worker, stop the main loader,
boot a new environment and return `true`.  The import delta
(`ast_manager.compute_import_delta`, missing `crate::ast`) and the inputs of
`boot_main` are parameters. -/
def update_environment (delta : Except String (List String × List String))
    (scan : Except String (List String)) (handshake : List RLine)
    (sigterm_ok : Bool) (r : ImportRunner) :
    Except String Bool × ImportRunner × List KillAction :=
  if !r.first_scan then (.ok false, r, [])
  else
    match delta with
    | .error e => (.error ("Failed to compute import delta: " ++ e), r, [])
    | .ok (added, removed) =>
      if added.isEmpty && removed.isEmpty then (.ok false, r, [])
      else
        let stopped :=
          match r.environment with
          | some env =>
              let s := stopAllForked sigterm_ok
                (env.forked_processes.map Prod.fst) r
              ((stop_main s.1).2, s.2)
          | none => (r, [])
        let booted := boot_main scan handshake stopped.1
        match booted.1 with
        | .error e => (.error e, booted.2, stopped.2)
        | .ok _ => (.ok true, booted.2, stopped.2)

/-! ## Layer message handling (`src/layer.rs`) -/

/-- Result from the initial fork (`ForkResult` in `src/layer.rs`). -/
inductive ForkResult where
  | complete (result : Option String)
  | error (e : String)
deriving Repr, DecidableEq

/-- Result from a forked process (`ProcessResult` in `src/layer.rs`). -/
inductive ProcessResult where
  | complete (result : Option String)
  | error (e : String)
deriving Repr, DecidableEq

/-- Modelled from the spec: the single-shot resolver of the missing
`async_resolve.rs` (spec §4.5) — a guarded optional value; `resolve` stores
the value on first call and later calls are no-ops. -/
structure AsyncResolve (α : Type) where
  value : Option α
deriving Repr, DecidableEq

/-- First `resolve` wins; subsequent resolve attempts are no-ops. -/
def AsyncResolve.resolve {α : Type} (r : AsyncResolve α) (v : α) :
    AsyncResolve α :=
  match r.value with
  | some _ => r
  | none => { value := some v }

/-- A fresh, pending resolver. -/
def AsyncResolve.pending {α : Type} : AsyncResolve α := { value := none }

/-- The shared tables of a `Layer` (`src/layer.rs` lines 43–50): UUID→PID,
UUID→name, and the two resolver maps. -/
structure LayerTables where
  forked_processes : List (String × Int)
  forked_names : List (String × String)
  fork_resolvers : List (String × AsyncResolve ForkResult)
  completion_resolvers : List (String × AsyncResolve ProcessResult)
deriving Repr, DecidableEq

/-- Embedding of `resolver.resolve(v)` on the table entry for `k`, leaving the table
unchanged when no resolver is installed (the Rust code logs an error in that
case). -/
def resolveEntry {α : Type} (k : String) (v : α)
    (m : List (String × AsyncResolve α)) : List (String × AsyncResolve α) :=
  m.map (fun p => match p.1 == k with
    | true => (p.1, p.2.resolve v)
    | false => p)

/-- The content of one output line, after the attempt to serde-parse it as a
`Message`: either a protocol message or raw text. -/
inductive LineContent where
  | message (m : Message)
  | text (s : String)
deriving Repr, DecidableEq

/-- Outcome of `handle_message` (`src/layer.rs` lines 298–406): the updated
tables on `Ok(())`, the `Err` return for non-message content, or a panic —
`handle_message` unwraps the worker UUID with
`uuid.expect("UUID should be known")` on `ChildComplete` and `ChildError`. -/
inductive HandleOutcome where
  | ok (st : LayerTables)
  | rawContent (err : String)
  | panicked (msg : String)
deriving Repr, DecidableEq

/-- Embedding of `handle_message` from `src/layer.rs` (lines 298–406). -/
def handle_message (content : LineContent) (uuid : Option String)
    (st : LayerTables) : HandleOutcome :=
  match content with
  | .text s =>
      .rawContent ("Failed to parse message, received raw content: " ++ s)
  | .message m =>
    match m with
    | .forkResponse request_id request_name child_pid =>
        .ok { st with
          forked_processes := assocInsert request_id child_pid st.forked_processes,
          forked_names := assocInsert request_id request_name st.forked_names,
          fork_resolvers := resolveEntry request_id
            (ForkResult.complete (some (toString child_pid))) st.fork_resolvers }
    | .childComplete result =>
        match uuid with
        | none => .panicked "UUID should be known"
        | some u =>
            .ok { st with
                  completion_resolvers :=
                    resolveEntry u (ProcessResult.complete result)
                      st.completion_resolvers }
    | .childError err traceback =>
        match uuid with
        | none => .panicked "UUID should be known"
        | some u =>
            let full_error := match traceback with
              | some t => err ++ "\n\n" ++ t
              | none => err
            .ok { st with
                  completion_resolvers :=
                    resolveEntry u (ProcessResult.error full_error)
                      st.completion_resolvers }
    | .unknownError _ => .ok st
    | _ => .ok st

/-- One line arriving on a monitor thread, as classified by
`parse_multiplexed_line`.  Modelled from the spec (§4.4; `multiplex_logs.rs`
is missing): a successfully parsed `pid:stream:content` envelope becomes
`mux`, a line that fails envelope parsing is handed through whole as
`plain`. -/
inductive OutputLine where
  | mux (pid : Int) (stream_name : String) (content : LineContent)
  | plain (content : LineContent)
deriving Repr, DecidableEq

/-- The UUID lookup by PID in `process_output_line` (lines 229–237 of
`src/layer.rs`): scan `forked_processes` for an entry whose PID matches. -/
def uuidForPid (st : LayerTables) (pid : Int) : Option String :=
  (st.forked_processes.find? (fun p => p.2 == pid)).map Prod.fst

/-- Outcome of `process_output_line`: updated tables, or a panic propagated
from `handle_message`. -/
inductive ProcessLineOutcome where
  | ok (st : LayerTables)
  | panicked (msg : String)
deriving Repr, DecidableEq

/-- Embedding of `process_output_line` from `src/layer.rs` (lines 217–295):
an enveloped line whose PID maps to a known UUID is handed to
`handle_message` with that UUID (non-message content is printed with the
worker's name); an enveloped line with an unknown PID is printed and
ignored; a line that is not in the envelope is handed to `handle_message`
with `uuid = None` (non-message content is logged as an error). -/
def process_output_line (line : OutputLine) (st : LayerTables) :
    ProcessLineOutcome :=
  match line with
  | .mux pid _stream content =>
      match uuidForPid st pid with
      | some u =>
          match handle_message content (some u) st with
          | .ok st1 => .ok st1
          | .rawContent _ => .ok st
          | .panicked m => .panicked m
      | none => .ok st
  | .plain content =>
      match handle_message content none st with
      | .ok st1 => .ok st1
      | .rawContent _ => .ok st
      | .panicked m => .panicked m

/-! ## Helper lemmas for the scanner -/

theorem mem_insertModule (s : List String) (x m : String) :
    m ∈ insertModule s x ↔ m ∈ s ∨ m = x := by
  unfold insertModule
  by_cases h : x ∈ s
  · simp only [if_pos h]
    constructor
    · exact Or.inl
    · rintro (hm | rfl)
      · exact hm
      · exact h
  · simp [if_neg h]

theorem mem_foldl_keptStep (package_name : Option String)
    (imports : List ImportInfo) :
    ∀ (acc : List String) (m : String),
      m ∈ imports.foldl (keptStep package_name) acc
        ↔ m ∈ acc ∨ ∃ imp ∈ imports,
            keepImport package_name imp = true ∧ imp.module = m := by
  induction imports with
  | nil => intro acc m; simp
  | cons imp rest ih =>
    intro acc m
    rw [List.foldl_cons, ih]
    simp only [List.mem_cons]
    unfold keptStep
    by_cases h : keepImport package_name imp = true
    · rw [if_pos h, mem_insertModule]
      constructor
      · rintro ((hm | rfl) | ⟨i, hi, hk, hmod⟩)
        · exact Or.inl hm
        · exact Or.inr ⟨imp, Or.inl rfl, h, rfl⟩
        · exact Or.inr ⟨i, Or.inr hi, hk, hmod⟩
      · rintro (hm | ⟨i, (rfl | hi), hk, hmod⟩)
        · exact Or.inl (Or.inl hm)
        · exact Or.inl (Or.inr hmod.symm)
        · exact Or.inr ⟨i, hi, hk, hmod⟩
    · rw [if_neg h]
      constructor
      · rintro (hm | ⟨i, hi, hk, hmod⟩)
        · exact Or.inl hm
        · exact Or.inr ⟨i, Or.inr hi, hk, hmod⟩
      · rintro (hm | ⟨i, (rfl | hi), hk, hmod⟩)
        · exact Or.inl hm
        · exact absurd hk h
        · exact Or.inr ⟨i, hi, hk, hmod⟩

theorem processFile_ok (parse : String → Except String Mod)
    (package_name : Option String) (acc acc1 : List String) (f : PyFile)
    (h : processFile parse package_name acc f = .ok acc1) :
    ∃ source body, f.content = .ok source ∧ parse source = .ok (.module body)
      ∧ acc1 = (collect_imports body).foldl (keptStep package_name) acc := by
  cases hc : f.content with
  | error e => simp [processFile, hc] at h
  | ok source =>
    cases hp : parse source with
    | error e => simp [processFile, hc, hp] at h
    | ok md =>
      cases md with
      | module body =>
        simp only [processFile, hc, hp, Except.ok.injEq] at h
        exact ⟨source, body, rfl, hp, h.symm⟩
      | notModule => simp [processFile, hc, hp] at h

theorem processPyFilesAux_mem (parse : String → Except String Mod)
    (package_name : Option String) (files : List PyFile) :
    ∀ (acc res : List String),
      processPyFilesAux parse package_name acc files = .ok res →
      ∀ m, m ∈ res ↔ m ∈ acc ∨ ∃ f ∈ files, ∃ source body,
        f.content = .ok source ∧ parse source = .ok (.module body) ∧
        ∃ imp ∈ collect_imports body,
          keepImport package_name imp = true ∧ imp.module = m := by
  induction files with
  | nil =>
    intro acc res h m
    simp only [processPyFilesAux, Except.ok.injEq] at h
    subst h
    simp
  | cons f rest ih =>
    intro acc res h m
    rw [processPyFilesAux] at h
    cases hpf : processFile parse package_name acc f with
    | error e => rw [hpf] at h; simp at h
    | ok acc1 =>
      rw [hpf] at h
      obtain ⟨source, body, hc, hp, hacc1⟩ :=
        processFile_ok parse package_name acc acc1 f hpf
      rw [ih acc1 res h m, hacc1, mem_foldl_keptStep]
      simp only [List.mem_cons]
      constructor
      · rintro ((hm | hcontrib) | ⟨g, hg, hgc⟩)
        · exact Or.inl hm
        · exact Or.inr ⟨f, Or.inl rfl, source, body, hc, hp, hcontrib⟩
        · exact Or.inr ⟨g, Or.inr hg, hgc⟩
      · rintro (hm | ⟨g, (rfl | hg), hgc⟩)
        · exact Or.inl (Or.inl hm)
        · obtain ⟨source2, body2, hc2, hp2, himp⟩ := hgc
          rw [hc] at hc2
          injection hc2 with hs
          subst hs
          rw [hp] at hp2
          injection hp2 with hmd
          injection hmd with hb
          subst hb
          exact Or.inl (Or.inr himp)
        · exact Or.inr ⟨g, hg, hgc⟩

/-! ## Claim C3 -/

/-- The parse oracle of the C3 counterexample: every file parses to the
single statement `import foobar`. -/
def parseFoobar : String → Except String Mod :=
  fun _ => .ok (.module [Stmt.imp [("foobar", none)]])

/-- The project tree of the C3 counterexample: a single readable file. -/
def filesFoobar : List PyFile :=
  [{ path := "main.py", content := .ok "import foobar" }]

/-- C3, counterexample.  With detected package name `foo`, the scan produces
an empty import set for a tree whose one file imports `foobar`: the module
`foobar` — whose first dotted segment `foobar` differs from `foo` — is *not*
retained, because the filter uses `starts_with`.  The third conjunct shows
the import was collected (non-relative) before filtering. -/
theorem c3_counterexample :
    process_py_files parseFoobar (some "foo") filesFoobar = .ok []
  ∧ firstSegment "foobar" ≠ "foo"
  ∧ collect_imports [Stmt.imp [("foobar", none)]]
      = [{ module := "foobar", names := ["foobar"], is_relative := false }] :=
  ⟨rfl, by decide, rfl⟩

/-- C3 (amended): every module in a successful scan's import set arises from
a collected non-relative import, and when a package name was detected the
module does not have the package name as a *string prefix* — a strict
superset of the claimed first-dotted-segment exclusion, which additionally
discards modules such as `foobar` for package `foo`. -/
theorem c3_import_set_excludes (parse : String → Except String Mod)
    (package_name : Option String) (files : List PyFile) (res : List String)
    (h : process_py_files parse package_name files = .ok res) :
    ∀ m ∈ res,
      (∀ pkg, package_name = some pkg → startsWithStr m pkg = false)
      ∧ ∃ f ∈ files, ∃ source body,
          f.content = .ok source ∧ parse source = .ok (.module body)
          ∧ ∃ imp ∈ collect_imports body,
              imp.is_relative = false ∧ imp.module = m := by
  intro m hm
  have hmem := (processPyFilesAux_mem parse package_name files [] res h m).mp hm
  simp only [List.not_mem_nil, false_or] at hmem
  obtain ⟨f, hf, source, body, hc, hp, imp, himp, hkeep, hmod⟩ := hmem
  unfold keepImport at hkeep
  rw [Bool.and_eq_true] at hkeep
  obtain ⟨hrel, hpkg⟩ := hkeep
  rw [Bool.not_eq_true'] at hrel hpkg
  refine ⟨?_, f, hf, source, body, hc, hp, imp, himp, hrel, hmod⟩
  intro pkg hpkgEq
  rw [hpkgEq] at hpkg
  rw [← hmod]
  exact hpkg

/-- C3, witness for the amended theorem at a concrete scan. -/
theorem c3_witness :
    process_py_files parseFoobar none filesFoobar = .ok ["foobar"]
  ∧ ((∀ pkg, (none : Option String) = some pkg →
        startsWithStr "foobar" pkg = false)
     ∧ ∃ f ∈ filesFoobar, ∃ source body,
         f.content = .ok source ∧ parseFoobar source = .ok (.module body)
         ∧ ∃ imp ∈ collect_imports body,
             imp.is_relative = false ∧ imp.module = "foobar") :=
  ⟨rfl, c3_import_set_excludes parseFoobar none filesFoobar ["foobar"] rfl
    "foobar" (by simp)⟩

/-! ## Claim C4 -/

/-- C4, counterexample: an `import x` nested in a for-loop body is not
recorded — `Stmt::For` falls into the collector's catch-all arm — although
the same statement at top level is recorded. -/
theorem c4_counterexample :
    collect_imports [Stmt.forStmt [Stmt.imp [("x", none)]] []] = []
  ∧ collect_imports [Stmt.imp [("x", none)]]
      = [{ module := "x", names := ["x"], is_relative := false }] :=
  ⟨rfl, rfl⟩

/-- C4 (amended): the collector descends into both arms of conditionals,
while-loop bodies and their else clauses, function and coroutine bodies,
and class bodies — but not into for-loop bodies or else clauses, which
contribute nothing. -/
theorem c4_collect_imports_containers (body orelse : List Stmt) :
    collect_imports [Stmt.ifStmt body orelse]
        = collect_imports body ++ collect_imports orelse
  ∧ collect_imports [Stmt.whileStmt body orelse]
        = collect_imports body ++ collect_imports orelse
  ∧ collect_imports [Stmt.functionDef body] = collect_imports body
  ∧ collect_imports [Stmt.asyncFunctionDef body] = collect_imports body
  ∧ collect_imports [Stmt.classDef body] = collect_imports body
  ∧ collect_imports [Stmt.forStmt body orelse] = [] := by
  refine ⟨?_, ?_, ?_, ?_, ?_, ?_⟩ <;> simp [collect_imports, collectStmt]

/-! ## Claim C8 -/

/-- A file the scan can get through: readable, and parsing to a module
AST. -/
def fileGood (parse : String → Except String Mod) (f : PyFile) : Prop :=
  ∃ source body, f.content = .ok source ∧ parse source = .ok (.module body)

theorem processPyFilesAux_ok_iff (parse : String → Except String Mod)
    (package_name : Option String) (files : List PyFile) :
    ∀ acc, (∃ res, processPyFilesAux parse package_name acc files = .ok res)
      ↔ ∀ f ∈ files, fileGood parse f := by
  induction files with
  | nil => intro acc; simp [processPyFilesAux]
  | cons f rest ih =>
    intro acc
    rw [processPyFilesAux]
    cases hpf : processFile parse package_name acc f with
    | error e =>
      constructor
      · rintro ⟨res, h⟩
        simp at h
      · intro hall
        obtain ⟨source, body, hc, hp⟩ := hall f (List.mem_cons_self f rest)
        have hok : processFile parse package_name acc f
            = .ok ((collect_imports body).foldl (keptStep package_name) acc) := by
          simp [processFile, hc, hp]
        rw [hpf] at hok
        simp at hok
    | ok acc1 =>
      have hgoodf : fileGood parse f := by
        obtain ⟨source, body, hc, hp, -⟩ :=
          processFile_ok parse package_name acc acc1 f hpf
        exact ⟨source, body, hc, hp⟩
      rw [ih acc1, List.forall_mem_cons]
      exact ⟨fun h => ⟨hgoodf, h⟩, fun h => h.2⟩

theorem processPyFilesAux_skip_good (parse : String → Except String Mod)
    (package_name : Option String) (pre : List PyFile) :
    ∀ (acc : List String) (rest : List PyFile),
      (∀ g ∈ pre, fileGood parse g) →
      ∃ acc2, processPyFilesAux parse package_name acc (pre ++ rest)
        = processPyFilesAux parse package_name acc2 rest := by
  induction pre with
  | nil => intro acc rest _; exact ⟨acc, rfl⟩
  | cons f fs ih =>
    intro acc rest hall
    obtain ⟨source, body, hc, hp⟩ := hall f (List.mem_cons_self f fs)
    have hpf : processFile parse package_name acc f
        = .ok ((collect_imports body).foldl (keptStep package_name) acc) := by
      simp [processFile, hc, hp]
    rw [List.cons_append, processPyFilesAux, hpf]
    exact ih _ rest (fun g hg => hall g (List.mem_cons_of_mem f hg))

/-- C8 (amended): the scan succeeds exactly when every `.py` file in the
tree is readable and parses to a module; it aborts on the first bad file —
with `Failed to parse <path>: <reason>` for a parse failure (identifying
the file and the reason), but with the bare I/O error message for an
unreadable file, which does not name the file. -/
theorem c8_scan_failure_semantics (parse : String → Except String Mod)
    (package_name : Option String) :
    (∀ files : List PyFile,
      (∃ res, process_py_files parse package_name files = .ok res)
        ↔ ∀ f ∈ files, fileGood parse f)
  ∧ (∀ (pre post : List PyFile) (f : PyFile) (source e : String),
      (∀ g ∈ pre, fileGood parse g) →
      f.content = .ok source → parse source = .error e →
      process_py_files parse package_name (pre ++ f :: post)
        = .error ("Failed to parse " ++ f.path ++ ": " ++ e))
  ∧ (∀ (pre post : List PyFile) (f : PyFile) (e : String),
      (∀ g ∈ pre, fileGood parse g) →
      f.content = .error e →
      process_py_files parse package_name (pre ++ f :: post) = .error e) := by
  refine ⟨?_, ?_, ?_⟩
  · intro files
    exact processPyFilesAux_ok_iff parse package_name files []
  · intro pre post f source e hpre hc hp
    unfold process_py_files
    obtain ⟨acc2, hacc2⟩ :=
      processPyFilesAux_skip_good parse package_name pre [] (f :: post) hpre
    rw [hacc2, processPyFilesAux]
    have hpf : processFile parse package_name acc2 f
        = .error ("Failed to parse " ++ f.path ++ ": " ++ e) := by
      simp [processFile, hc, hp]
    rw [hpf]
  · intro pre post f e hpre hc
    unfold process_py_files
    obtain ⟨acc2, hacc2⟩ :=
      processPyFilesAux_skip_good parse package_name pre [] (f :: post) hpre
    rw [hacc2, processPyFilesAux]
    have hpf : processFile parse package_name acc2 f = .error e := by
      simp [processFile, hc]
    rw [hpf]

/-- The parse oracle of the C8 concrete scans: `import os` parses, anything
else is a syntax error. -/
def parseC8 : String → Except String Mod :=
  fun s => if s == "import os" then .ok (.module [Stmt.imp [("os", none)]])
           else .error "invalid syntax"

/-- C8, witness for the amended theorem: a readable, parsing file followed
by a file that fails to parse aborts the scan with an error naming the
failing file. -/
theorem c8_witness :
    process_py_files parseC8 none
        [{ path := "ok.py", content := .ok "import os" },
         { path := "bad.py", content := .ok "def (" }]
      = .error ("Failed to parse " ++ "bad.py" ++ ": " ++ "invalid syntax") :=
  (c8_scan_failure_semantics parseC8 none).2.1
    [{ path := "ok.py", content := .ok "import os" }] []
    { path := "bad.py", content := .ok "def (" } "def (" "invalid syntax"
    (by
      intro g hg
      simp only [List.mem_singleton] at hg
      subst hg
      exact ⟨"import os", [Stmt.imp [("os", none)]], rfl, rfl⟩)
    rfl rfl

/-- C8, counterexample: a tree whose only `.py` file is unreadable aborts
the scan with the bare I/O error message, which does not identify the
file — against the claim that the error identifies the file. -/
theorem c8_counterexample :
    process_py_files parseC8 none
        [{ path := "secret.py", content := .error "permission denied (os error 13)" }]
      = .error "permission denied (os error 13)"
  ∧ ¬ List.IsInfix "secret.py".toList "permission denied (os error 13)".toList :=
  ⟨rfl, by decide⟩

/-! ## Claim C1 -/

/-- Lines that the `exec_isolated` read loop skips without terminating: raw
output and protocol messages other than `ForkResponse` and `ChildError`. -/
def passesForkLoop : RLine → Bool
  | .msg (.forkResponse _ _ _) => false
  | .msg (.childError _ _) => false
  | .ioErr _ => false
  | _ => true

theorem readUntilForkResponse_skip (pre : List RLine) :
    (∀ l ∈ pre, passesForkLoop l = true) →
    ∀ rest, readUntilForkResponse (pre ++ rest) = readUntilForkResponse rest := by
  induction pre with
  | nil => intro _ rest; rfl
  | cons l ls ih =>
    intro hpre rest
    have hl := hpre l (List.mem_cons_self l ls)
    have hls : ∀ x ∈ ls, passesForkLoop x = true :=
      fun x hx => hpre x (List.mem_cons_of_mem l hx)
    cases l with
    | raw s => exact ih hls rest
    | ioErr e => simp [passesForkLoop] at hl
    | msg m =>
      cases m with
      | forkResponse rid rname pid => simp [passesForkLoop] at hl
      | childError err tb => simp [passesForkLoop] at hl
      | forkRequest c => exact ih hls rest
      | childComplete res => exact ih hls rest
      | unknownError err => exact ih hls rest
      | importComplete => exact ih hls rest
      | importError err tb => exact ih hls rest
      | exitRequest => exact ih hls rest

/-- A booted runner whose loader has already emitted a `ForkResponse`
line on stdout. -/
def runnerWithResponse : ImportRunner :=
  { environment := some
      { child_alive := true, stdin_writes := [],
        reader := [RLine.msg (Message.forkResponse "r1" "w" 42)],
        forked_processes := [] },
    first_scan := true }

/-- A booted runner whose loader has emitted a `ChildError` line. -/
def runnerWithChildError : ImportRunner :=
  { environment := some
      { child_alive := true, stdin_writes := [],
        reader := [RLine.msg (Message.childError "boom" none)],
        forked_processes := [] },
    first_scan := true }

/-- C1, counterexample: `exec_isolated` does read the loader's output
stream and does wait for the fork outcome.  On a runner whose loader
emitted a `ForkResponse`, the call consumes that line (the reader goes from
one pending line to none) and records the PID before returning; on a runner
whose loader emitted a `ChildError`, the call returns that fork error
instead of the worker UUID. -/
theorem c1_counterexample :
    exec_isolated "d" "u1" runnerWithResponse
      = (.ok "u1",
         { environment := some
             { child_alive := true,
               stdin_writes := [Message.forkRequest (exec_code "d")],
               reader := [],
               forked_processes := [("u1", 42)] },
           first_scan := true })
  ∧ (exec_isolated "d" "u2" runnerWithChildError).1
      = .error ("Fork error: " ++ "boom")
  ∧ runnerWithResponse ≠ (exec_isolated "d" "u1" runnerWithResponse).2 :=
  ⟨rfl, rfl, by decide⟩

/-- C1 (amended): after writing and flushing the `ForkRequest`,
`exec_isolated` blocks reading the loader's stdout; once a `ForkResponse`
arrives (after any number of non-terminating lines, all consumed) it
records the freshly minted UUID with the reported PID and returns the UUID.
Fork outcome is consumed synchronously on the caller's thread — there are
no resolvers in `src/environment.rs`. -/
theorem c1_exec_isolated_blocks (pickled uuid : String) (r : ImportRunner)
    (env : Environment) (pre rest : List RLine) (rid rname : String)
    (pid : Int)
    (henv : r.environment = some env)
    (hreader : env.reader
      = pre ++ RLine.msg (Message.forkResponse rid rname pid) :: rest)
    (hpre : ∀ l ∈ pre, passesForkLoop l = true)
    (huuid : uuid.isEmpty = false) :
    exec_isolated pickled uuid r
      = (.ok uuid,
         { r with environment := some ({ env with
             stdin_writes := env.stdin_writes
               ++ [Message.forkRequest (exec_code pickled)],
             reader := rest,
             forked_processes := assocInsert uuid pid env.forked_processes }) }) := by
  have hread : readUntilForkResponse env.reader = (.ok (some pid), rest) := by
    rw [hreader, readUntilForkResponse_skip pre hpre]
    rfl
  unfold exec_isolated
  rw [henv]
  simp only [hread, huuid]
  rfl

/-- C1, witness for the amended theorem at a concrete booted runner. -/
theorem c1_witness :
    exec_isolated "d" "u1" runnerWithResponse
      = (.ok "u1",
         { environment := some
             { child_alive := true,
               stdin_writes := [Message.forkRequest (exec_code "d")],
               reader := [],
               forked_processes := assocInsert "u1" 42 [] },
           first_scan := true }) :=
  c1_exec_isolated_blocks "d" "u1" runnerWithResponse
    { child_alive := true, stdin_writes := [],
      reader := [RLine.msg (Message.forkResponse "r1" "w" 42)],
      forked_processes := [] }
    [] [] "r1" "w" 42 rfl rfl (by intro l hl; simp at hl) rfl

/-! ## Claim C2 -/

/-- A booted runner whose loader never writes anything back: its stdout
stream is already at end of file. -/
def runnerNoReply : ImportRunner :=
  { environment := some
      { child_alive := true, stdin_writes := [], reader := [],
        forked_processes := [] },
    first_scan := true }

/-- C2, counterexample: the serialized `ForkRequest` does not contain the
worker UUID — two calls minting different UUIDs write byte-identical
requests, and the written message is the `forkRequest` constructor carrying
only the prelude code.  Moreover the UUID is not installed in any table
before the request is flushed: on a loader that never answers (empty
reader), the call returns the UUID while `forked_processes` stays empty. -/
theorem c2_counterexample :
    ((exec_isolated "d" "u1" runnerNoReply).2.environment.map
        Environment.stdin_writes
      = (exec_isolated "d" "u2" runnerNoReply).2.environment.map
        Environment.stdin_writes)
  ∧ ((exec_isolated "d" "u1" runnerNoReply).2.environment.map
        Environment.stdin_writes
      = some [Message.forkRequest (exec_code "d")])
  ∧ (exec_isolated "d" "u1" runnerNoReply).1 = .ok "u1"
  ∧ ((exec_isolated "d" "u1" runnerNoReply).2.environment.map
        Environment.forked_processes) = some [] :=
  ⟨rfl, rfl, rfl, rfl⟩

/-- C2 (amended): the `ForkRequest` written by `exec_isolated` carries only
the generated prelude code — it has no `request_id` or `request_name`
field, so the same message is written whatever UUID is minted — and the
UUID→PID entry is created only after a `ForkResponse` is read back: if the
loader's stream ends without a response, the UUID is returned without ever
being registered. -/
theorem c2_fork_request_only_code (pickled u1 u2 : String) (r : ImportRunner)
    (env : Environment) (henv : r.environment = some env) :
    ((exec_isolated pickled u1 r).2.environment.map Environment.stdin_writes
       = some (env.stdin_writes ++ [Message.forkRequest (exec_code pickled)])
     ∧ (exec_isolated pickled u1 r).2.environment.map Environment.stdin_writes
       = (exec_isolated pickled u2 r).2.environment.map Environment.stdin_writes)
  ∧ (env.reader = [] → u1.isEmpty = false →
      exec_isolated pickled u1 r
        = (.ok u1,
           { r with environment := some ({ env with
               stdin_writes := env.stdin_writes
                 ++ [Message.forkRequest (exec_code pickled)],
               reader := [] }) })) := by
  constructor
  · have hwrites : ∀ u : String,
        (exec_isolated pickled u r).2.environment.map Environment.stdin_writes
          = some (env.stdin_writes
              ++ [Message.forkRequest (exec_code pickled)]) := by
      intro u
      unfold exec_isolated
      rw [henv]
      dsimp only
      generalize readUntilForkResponse env.reader = res
      obtain ⟨res1, res2⟩ := res
      cases res1 with
      | error e => rfl
      | ok pidOpt =>
        cases hue : u.isEmpty with
        | true => rfl
        | false =>
          cases pidOpt with
          | some pid => rfl
          | none => rfl
    exact ⟨hwrites u1, (hwrites u1).trans (hwrites u2).symm⟩
  · intro hreader hu1
    unfold exec_isolated
    rw [henv]
    have hread : readUntilForkResponse env.reader = (.ok none, []) := by
      rw [hreader]
      rfl
    simp only [hread, hu1]
    rfl

/-- C2, witness for the amended theorem at a concrete booted runner. -/
theorem c2_witness :
    ((exec_isolated "d" "u1" runnerNoReply).2.environment.map
        Environment.stdin_writes
       = some ([] ++ [Message.forkRequest (exec_code "d")])
     ∧ (exec_isolated "d" "u1" runnerNoReply).2.environment.map
        Environment.stdin_writes
       = (exec_isolated "d" "u2" runnerNoReply).2.environment.map
        Environment.stdin_writes)
  ∧ ([] = ([] : List RLine) → String.isEmpty "u1" = false →
      exec_isolated "d" "u1" runnerNoReply
        = (.ok "u1",
           { environment := some
               { child_alive := true,
                 stdin_writes := [] ++ [Message.forkRequest (exec_code "d")],
                 reader := [],
                 forked_processes := [] },
             first_scan := true })) := by
  have h := c2_fork_request_only_code "d" "u1" "u2" runnerNoReply
    { child_alive := true, stdin_writes := [], reader := [],
      forked_processes := [] } rfl
  exact h

/-! ## Claim C5 -/

/-- Whether a loader process exists: the environment holds a live child. -/
def loaderProcessExists (r : ImportRunner) : Bool :=
  match r.environment with
  | some env => env.child_alive
  | none => false

/-- A freshly constructed supervisor (`ImportRunner::new`): no environment,
`first_scan` unset. -/
def freshRunner : ImportRunner := { environment := none, first_scan := false }

/-- The supervisor after a successful `boot_main` with an empty module list
and an immediate `ImportComplete` handshake. -/
def bootedRunner : ImportRunner :=
  (boot_main (.ok []) [RLine.msg Message.importComplete] freshRunner).2

/-- C5, counterexample: at the reachable lifecycle point right after
`stop_main`, the loader process is gone while the `environment` field is
still set — the claimed equivalence `environment = None ⇔ no loader
process exists` fails there, and the supervisor still holds its
layer/environment after stopping the main loader. -/
theorem c5_counterexample :
    (stop_main bootedRunner).1 = .ok true
  ∧ (stop_main bootedRunner).2.environment ≠ none
  ∧ loaderProcessExists (stop_main bootedRunner).2 = false :=
  ⟨rfl, by decide, rfl⟩

/-- C5 (amended): `environment = none` implies no loader process, and a
successful `boot_main` installs a present, live environment; but
`stop_main` kills the loader while leaving the `environment` field set
(clearing only the forked-process map), so after `stop_main` the
supervisor holds a dead-but-present environment rather than `none`. -/
theorem c5_environment_lifecycle :
    (∀ r : ImportRunner, r.environment = none → loaderProcessExists r = false)
  ∧ (∀ (scan : Except String (List String)) (handshake : List RLine)
        (r r1 : ImportRunner) (u : Unit),
       boot_main scan handshake r = (.ok u, r1) →
       r1.environment ≠ none ∧ loaderProcessExists r1 = true)
  ∧ (∀ (r : ImportRunner) (env : Environment), r.environment = some env →
       (stop_main r).1 = .ok true
       ∧ (stop_main r).2.environment
           = some ({ env with child_alive := false, forked_processes := [] })
       ∧ loaderProcessExists (stop_main r).2 = false) := by
  refine ⟨?_, ?_, ?_⟩
  · intro r h
    unfold loaderProcessExists
    rw [h]
  · intro scan handshake r r1 u h
    cases hscan : scan with
    | error e => rw [hscan] at h; simp [boot_main] at h
    | ok mods =>
      rw [hscan] at h
      cases hhs : readUntilImportComplete handshake with
      | error e => simp [boot_main, hhs] at h
      | ok rest =>
        simp only [boot_main, hhs, Prod.mk.injEq] at h
        rw [← h.2]
        exact ⟨by simp, rfl⟩
  · intro r env henv
    unfold stop_main
    rw [henv]
    exact ⟨rfl, rfl, rfl⟩

/-- C5, witness: the amended facts at the concrete booted runner. -/
theorem c5_witness :
    (stop_main bootedRunner).1 = .ok true
  ∧ (stop_main bootedRunner).2.environment
      = some { child_alive := false, stdin_writes := [], reader := [],
               forked_processes := [] }
  ∧ loaderProcessExists (stop_main bootedRunner).2 = false :=
  c5_environment_lifecycle.2.2 bootedRunner
    { child_alive := true, stdin_writes := [], reader := [],
      forked_processes := [] } rfl

/-! ## Claim C6 -/

theorem stop_isolated_first_scan (b : Bool) (u : String) (r : ImportRunner) :
    (stop_isolated b u r).2.1.first_scan = r.first_scan := by
  unfold stop_isolated
  cases henv : r.environment with
  | none => rfl
  | some env =>
    dsimp only
    cases hlook : env.forked_processes.lookup u with
    | none => rfl
    | some pid => rfl

theorem stopAllForked_first_scan (b : Bool) (us : List String) :
    ∀ r : ImportRunner, (stopAllForked b us r).1.first_scan = r.first_scan := by
  induction us with
  | nil => intro r; rfl
  | cons u rest ih =>
    intro r
    rw [stopAllForked]
    dsimp only
    rw [ih]
    exact stop_isolated_first_scan b u r

theorem stop_main_first_scan (r : ImportRunner) :
    (stop_main r).2.first_scan = r.first_scan := by
  unfold stop_main
  cases henv : r.environment with
  | none => rfl
  | some env => rfl

/-- The fresh environment installed by a successful `boot_main`, for a
given unconsumed remainder of the handshake stream. -/
def freshEnv (rest : List RLine) : Environment :=
  { child_alive := true, stdin_writes := [], reader := rest,
    forked_processes := [] }

theorem boot_main_ok (modules : List String) (handshake rest : List RLine)
    (r : ImportRunner) (h : readUntilImportComplete handshake = .ok rest) :
    boot_main (.ok modules) handshake r
      = (.ok (), { r with environment := some (freshEnv rest) }) := by
  unfold boot_main
  rw [h]
  rfl

theorem stopAllForked_actions (l : List (String × Int)) :
    ∀ (r : ImportRunner) (env : Environment),
      r.environment = some env → env.forked_processes = l →
      (l.map Prod.fst).Nodup →
      (stopAllForked true (l.map Prod.fst) r).2
        = l.map (fun p => KillAction.sigterm p.2) := by
  induction l with
  | nil => intro r env _ _ _; rfl
  | cons kv tl ih =>
    obtain ⟨k, v⟩ := kv
    intro r env henv hforked hnodup
    rw [List.map_cons] at hnodup
    rw [List.nodup_cons] at hnodup
    have hlook : env.forked_processes.lookup k = some v := by
      rw [hforked]
      simp [List.lookup]
    have hknot : ∀ p ∈ tl, (p.1 != k) = true := by
      intro p hp
      have hmem : p.1 ∈ List.map Prod.fst tl := List.mem_map_of_mem Prod.fst hp
      have hne : p.1 ≠ k := by
        intro hpk
        rw [hpk] at hmem
        exact hnodup.1 hmem
      simpa using hne
    have hremove : assocRemove k env.forked_processes = tl := by
      rw [hforked]
      unfold assocRemove
      rw [List.filter_cons]
      simp only [bne_self_eq_false, Bool.false_eq_true, if_false]
      exact List.filter_eq_self.mpr hknot
    have hstop : stop_isolated true k r
        = (.ok true,
           { r with environment := some ({ env with
               stdin_writes := env.stdin_writes ++ [Message.exitRequest],
               forked_processes := tl }) },
           [KillAction.sigterm v]) := by
      unfold stop_isolated
      rw [henv]
      dsimp only
      rw [hlook]
      dsimp only
      rw [hremove]
      rfl
    rw [List.map_cons, List.map_cons, stopAllForked]
    dsimp only
    rw [hstop]
    dsimp only
    rw [ih _ ({ env with
          stdin_writes := env.stdin_writes ++ [Message.exitRequest],
          forked_processes := tl }) rfl rfl hnodup.2]
    rfl

/-- C6: `update_environment` returns `false` with no side effects before
the first scan; returns `false` leaving the runner (loader process
included) untouched when the rescan's delta is empty; and on a non-empty
delta it stops every forked worker (one termination signal each), stops
the loader, boots a fresh environment and returns `true`. -/
theorem c6_update_environment_spec :
    (∀ delta scan handshake (b : Bool) (r : ImportRunner),
       r.first_scan = false →
       update_environment delta scan handshake b r = (.ok false, r, []))
  ∧ (∀ scan handshake (b : Bool) (r : ImportRunner),
       r.first_scan = true →
       update_environment (.ok ([], [])) scan handshake b r
         = (.ok false, r, []))
  ∧ (∀ (added removed modules : List String) (handshake rest : List RLine)
        (r : ImportRunner) (env : Environment),
       r.first_scan = true →
       (added.isEmpty && removed.isEmpty) = false →
       r.environment = some env →
       (env.forked_processes.map Prod.fst).Nodup →
       readUntilImportComplete handshake = .ok rest →
       update_environment (.ok (added, removed)) (.ok modules) handshake
           true r
         = (.ok true,
            { r with environment := some (freshEnv rest) },
            env.forked_processes.map (fun p => KillAction.sigterm p.2))) := by
  refine ⟨?_, ?_, ?_⟩
  · intro delta scan handshake b r h
    unfold update_environment
    rw [h]
    rfl
  · intro scan handshake b r h
    unfold update_environment
    rw [h]
    rfl
  · intro added removed modules handshake rest r env hfs hne henv hnodup hhs
    unfold update_environment
    rw [hfs]
    dsimp only
    rw [hne]
    rw [henv]
    dsimp only
    rw [boot_main_ok modules handshake rest _ hhs]
    dsimp only
    have hacts := stopAllForked_actions env.forked_processes r env henv rfl
      hnodup
    have hfsX : (stop_main
        (stopAllForked true (env.forked_processes.map Prod.fst) r).1).2.first_scan
        = r.first_scan := by
      rw [stop_main_first_scan, stopAllForked_first_scan]
    rw [hfsX, hacts, hfs]
    rfl

/-- A booted runner with one in-flight worker. -/
def runnerOneWorker : ImportRunner :=
  { environment := some
      { child_alive := true, stdin_writes := [], reader := [],
        forked_processes := [("w1", 7)] },
    first_scan := true }

/-- C6, witness: a non-empty delta on a runner with one worker stops that
worker, boots a fresh environment and returns `true`. -/
theorem c6_witness :
    update_environment (.ok (["yaml"], [])) (.ok ["yaml"])
        [RLine.msg Message.importComplete] true runnerOneWorker
      = (.ok true,
         { environment := some (freshEnv []), first_scan := true },
         [KillAction.sigterm 7]) :=
  c6_update_environment_spec.2.2 ["yaml"] [] ["yaml"]
    [RLine.msg Message.importComplete] [] runnerOneWorker
    { child_alive := true, stdin_writes := [], reader := [],
      forked_processes := [("w1", 7)] }
    rfl rfl rfl (by decide) rfl

/-! ## Claim C10 -/

/-- C10: stopping a UUID absent from the worker table returns `false`
without error, sends no termination signal and writes no `ExitRequest`,
leaving the runner (tables and loader process) untouched; the only error
case is an unbooted environment, and on a booted environment
`stop_isolated` never returns an error. -/
theorem c10_stop_isolated_unknown (sigterm_ok : Bool) (process_uuid : String)
    (r : ImportRunner) :
    (∀ env, r.environment = some env →
       env.forked_processes.lookup process_uuid = none →
       stop_isolated sigterm_ok process_uuid r = (.ok false, r, []))
  ∧ (r.environment = none →
       stop_isolated sigterm_ok process_uuid r
         = (.error "Environment not initialized. Call boot_main first.",
            r, []))
  ∧ (∀ env, r.environment = some env →
       ∀ e, (stop_isolated sigterm_ok process_uuid r).1 ≠ .error e) := by
  refine ⟨?_, ?_, ?_⟩
  · intro env henv hlook
    unfold stop_isolated
    rw [henv]
    dsimp only
    rw [hlook]
  · intro henv
    unfold stop_isolated
    rw [henv]
  · intro env henv e
    unfold stop_isolated
    rw [henv]
    dsimp only
    cases hlook : env.forked_processes.lookup process_uuid with
    | none => simp
    | some pid => simp

/-- C10, witness: an unknown UUID on a booted runner, and the unbooted
error case. -/
theorem c10_witness :
    stop_isolated true "ghost" runnerNoReply = (.ok false, runnerNoReply, [])
  ∧ stop_isolated true "ghost" freshRunner
      = (.error "Environment not initialized. Call boot_main first.",
         freshRunner, []) :=
  ⟨(c10_stop_isolated_unknown true "ghost" runnerNoReply).1
      { child_alive := true, stdin_writes := [], reader := [],
        forked_processes := [] } rfl rfl,
   (c10_stop_isolated_unknown true "ghost" freshRunner).2.1 rfl⟩

/-! ## Claim C7 -/

theorem lookup_resolveEntry {α : Type} (u : String) (v : α)
    (m : List (String × AsyncResolve α)) :
    ∀ res, m.lookup u = some res →
      (resolveEntry u v m).lookup u = some (res.resolve v) := by
  induction m with
  | nil => intro res h; simp at h
  | cons p tl ih =>
    intro res h
    obtain ⟨k, rv⟩ := p
    rw [List.lookup_cons] at h
    cases hbeq : u == k
    · have hbeq2 : (k == u) = false := by
        cases hbeq2 : k == u
        · rfl
        · have hk : u = k := (eq_of_beq hbeq2).symm
          rw [hk, beq_self_eq_true] at hbeq
          cases hbeq
      rw [hbeq] at h
      dsimp only at h
      unfold resolveEntry
      rw [List.map_cons]
      simp only [hbeq2]
      rw [List.lookup_cons, hbeq]
      exact ih res h
    · have hk : u = k := eq_of_beq hbeq
      subst hk
      rw [beq_self_eq_true] at h
      dsimp only at h
      injection h with h
      subst h
      unfold resolveEntry
      rw [List.map_cons]
      simp only [beq_self_eq_true]
      rw [List.lookup_cons, beq_self_eq_true]

/-- The layer environment of the C7 concrete runs: one known worker `u`
with PID 7 whose loader has reported a `ChildError` with a traceback. -/
def envTrace : Environment :=
  { child_alive := true, stdin_writes := [],
    reader := [RLine.msg (Message.childError "boom" (some "TRACE"))],
    forked_processes := [("u", 7)] }

/-- A booted runner holding `envTrace`. -/
def runnerTrace : ImportRunner :=
  { environment := some envTrace, first_scan := true }

/-- C7, counterexample: awaiting the worker result through
`communicate_isolated` yields `Err("boom")` alone — the traceback `TRACE`
reported in the `ChildError` message does not appear in the returned error
value. -/
theorem c7_counterexample :
    communicate_isolated "u" runnerTrace
      = (.error "boom",
         { environment := some ({ envTrace with reader := [] }),
           first_scan := true })
  ∧ ¬ List.IsInfix "TRACE".toList "boom".toList :=
  ⟨rfl, by decide⟩

/-- C7 (amended): when a `ChildError` carrying a traceback reaches the
layer's message handler with a known worker UUID, the completion resolver
for that UUID is resolved with an error joining the message and the
traceback with a blank line; `communicate_isolated` in
`src/environment.rs`, however, surfaces only the bare error message,
discarding the traceback. -/
theorem c7_child_error_traceback :
    (∀ (st : LayerTables) (u e tb : String) (res : AsyncResolve ProcessResult),
       st.completion_resolvers.lookup u = some res →
       ∃ st1,
         handle_message (.message (.childError e (some tb))) (some u) st
           = .ok st1
         ∧ st1.completion_resolvers.lookup u
             = some (res.resolve (ProcessResult.error (e ++ "\n\n" ++ tb))))
  ∧ (∀ (r : ImportRunner) (env : Environment) (u e : String)
        (tb : Option String) (pid : Int) (restLines : List RLine),
       r.environment = some env →
       env.forked_processes.lookup u = some pid →
       env.reader = RLine.msg (Message.childError e tb) :: restLines →
       (communicate_isolated u r).1 = .error e) := by
  constructor
  · intro st u e tb res hres
    refine ⟨_, rfl, ?_⟩
    exact lookup_resolveEntry u _ st.completion_resolvers res hres
  · intro r env u e tb pid restLines henv hlook hreader
    unfold communicate_isolated
    rw [henv]
    dsimp only
    rw [hlook, hreader]
    rfl

/-- Completion tables of the C7 witness: one pending resolver for `u`. -/
def tablesPending : LayerTables :=
  { forked_processes := [("u", 7)], forked_names := [("u", "worker")],
    fork_resolvers := [],
    completion_resolvers := [("u", AsyncResolve.pending)] }

/-- C7, witness: the amended facts at concrete tables and runner. -/
theorem c7_witness :
    (∃ st1,
       handle_message (.message (.childError "boom" (some "TRACE")))
           (some "u") tablesPending = .ok st1
       ∧ st1.completion_resolvers.lookup "u"
           = some (AsyncResolve.pending.resolve
               (ProcessResult.error ("boom" ++ "\n\n" ++ "TRACE"))))
  ∧ (communicate_isolated "u" runnerTrace).1 = .error "boom" :=
  ⟨c7_child_error_traceback.1 tablesPending "u" "boom" "TRACE"
      AsyncResolve.pending rfl,
   c7_child_error_traceback.2 runnerTrace envTrace "u" "boom" (some "TRACE")
      7 [] rfl rfl rfl⟩

/-! ## Claim C9 -/

/-- C9: a line outside the `pid:stream:content` envelope that nevertheless
parses as a `ChildComplete` or `ChildError` message makes the stream
handler panic — the worker UUID is `None` and is unwrapped with
`expect("UUID should be known")` — rather than resolving or dropping the
message; a protocol message arriving inside an envelope whose PID maps to
a known worker UUID is always handled without panicking. -/
theorem c9_unenveloped_child_message_panics :
    (∀ (st : LayerTables) (res : Option String),
       process_output_line (.plain (.message (.childComplete res))) st
         = .panicked "UUID should be known")
  ∧ (∀ (st : LayerTables) (e : String) (tb : Option String),
       process_output_line (.plain (.message (.childError e tb))) st
         = .panicked "UUID should be known")
  ∧ (∀ (st : LayerTables) (pid : Int) (stream_name : String) (m : Message)
        (u : String),
       uuidForPid st pid = some u →
       ∃ st1, process_output_line (.mux pid stream_name (.message m)) st
         = .ok st1) := by
  refine ⟨fun st res => rfl, fun st e tb => rfl, ?_⟩
  intro st pid stream_name m u hu
  unfold process_output_line
  dsimp only
  rw [hu]
  cases m with
  | forkRequest c => exact ⟨_, rfl⟩
  | forkResponse a b c => exact ⟨_, rfl⟩
  | childComplete res => exact ⟨_, rfl⟩
  | childError e tb => exact ⟨_, rfl⟩
  | unknownError e => exact ⟨_, rfl⟩
  | importComplete => exact ⟨_, rfl⟩
  | importError e tb => exact ⟨_, rfl⟩
  | exitRequest => exact ⟨_, rfl⟩

/-- Tables of the C9 witness: worker `u` known under PID 5. -/
def tablesPid5 : LayerTables :=
  { forked_processes := [("u", 5)], forked_names := [("u", "worker")],
    fork_resolvers := [],
    completion_resolvers := [("u", AsyncResolve.pending)] }

/-- C9, witness: the panic on a bare `ChildComplete`, and the panic-free
handling of the same message inside an envelope with a known PID. -/
theorem c9_witness :
    process_output_line (.plain (.message (.childComplete (some "r"))))
        tablesPid5 = .panicked "UUID should be known"
  ∧ ∃ st1,
      process_output_line (.mux 5 "stdout" (.message (.childComplete (some "r"))))
        tablesPid5 = .ok st1 :=
  ⟨c9_unenveloped_child_message_panics.1 tablesPid5 (some "r"),
   c9_unenveloped_child_message_panics.2.2 tablesPid5 5 "stdout"
     (.childComplete (some "r")) "u" rfl⟩

end Hotreload
